import Mathlib

/-!
Verification of the maesh control-plane core: a shallow embedding of
`pkg/k8s/tcpportmapping.go` (the durable TCP port allocator) and of the
controller reconciliation loop (`Controller.Run`, `createMeshService`,
`getTCPPort`, `deployConfiguration`, `deployConfigurationToUnreadyNodes`),
together with theorems settling the spec claims about them.

Go strings are embedded as `List Char`; `int32` values as `Int` (Go's
`strconv.ParseInt(_, 10, 32)` range checks are made explicit, so no wrapping
arithmetic occurs anywhere in the embedded code).
-/

/-- Go strings, embedded as lists of characters. -/
abbrev GoStr := List Char

/-- Build a `GoStr` from a Lean string literal. -/
def gs (s : String) : GoStr := s.data

/-- The ten decimal digit characters, used to format `%d` output. -/
def digitToChar : Nat → Char
  | 0 => '0'
  | 1 => '1'
  | 2 => '2'
  | 3 => '3'
  | 4 => '4'
  | 5 => '5'
  | 6 => '6'
  | 7 => '7'
  | 8 => '8'
  | _ => '9'

/-- Value of a decimal digit character, as used by Go's `strconv.ParseInt`
    with base 10: characters outside '0'..'9' are rejected. -/
def digitVal? (c : Char) : Option Nat :=
  if '0' ≤ c ∧ c ≤ '9' then some (c.toNat - 48) else none

/-- Big-endian decimal digits of `n` (empty for `n = 0`), with explicit fuel
    so the definition is structural. `fuel ≥ n` suffices. -/
def natDigitsAux : Nat → Nat → List Char
  | 0, _ => []
  | fuel + 1, n => if n = 0 then [] else natDigitsAux fuel (n / 10) ++ [digitToChar (n % 10)]

/-- Decimal representation of a natural number, as produced by Go's `%d`. -/
def natDigits (n : Nat) : List Char :=
  if n = 0 then ['0'] else natDigitsAux n n

/-- Decimal representation of an integer, as produced by Go's `%d` on `int32`. -/
def intToGoStr (n : Int) : GoStr :=
  if n < 0 then '-' :: natDigits n.natAbs else natDigits n.toNat

/-- Accumulating decimal parse of a digit string, as performed by Go's
    `strconv.ParseUint`: fails on the first non-digit character. -/
def parseNatDigits : List Char → Nat → Option Nat
  | [], acc => some acc
  | c :: cs, acc =>
    match digitVal? c with
    | some d => parseNatDigits cs (acc * 10 + d)
    | none => none

/-- Parse a nonempty digit string (Go's `ParseUint` rejects an empty body). -/
def parseNatDigitsNE : List Char → Option Nat
  | [] => none
  | c :: cs => parseNatDigits (c :: cs) 0

/-- Go's `strconv.ParseInt(s, 10, 32)`: optional sign, nonempty decimal
    digits, and an `int32` range check (`[-2^31, 2^31 - 1]`); any violation
    makes the parse fail (Go returns a non-nil error). -/
def parseInt32 (s : GoStr) : Option Int :=
  match s with
  | [] => none
  | c :: cs =>
    if c = '-' then
      match parseNatDigitsNE cs with
      | some n => if n ≤ 2 ^ 31 then some (-(n : Int)) else none
      | none => none
    else if c = '+' then
      match parseNatDigitsNE cs with
      | some n => if n < 2 ^ 31 then some (n : Int) else none
      | none => none
    else
      match parseNatDigitsNE (c :: cs) with
      | some n => if n < 2 ^ 31 then some (n : Int) else none
      | none => none

/-- Go's `strings.Split(s, sep)` for a one-character separator (the source
    only splits on `":"` and `"/"`). Never returns the empty list. -/
def splitGo (sep : Char) : GoStr → List GoStr
  | [] => [[]]
  | c :: s =>
    if c = sep then [] :: splitGo sep s
    else
      match splitGo sep s with
      | [] => [[c]]
      | piece :: rest => (c :: piece) :: rest

/-- `ServiceWithPort` from `pkg/k8s/tcpportmapping.go`: a combination of
    service name, namespace and port. Field order follows the Go struct. -/
structure ServiceWithPort where
  Namespace : GoStr
  Name : GoStr
  Port : Int
deriving DecidableEq

/-- `metav1.NamespaceDefault`, the Kubernetes constant `"default"`. -/
def NamespaceDefault : GoStr := gs "default"

/-- `parseServiceNamePort` from `pkg/k8s/tcpportmapping.go`: splits
    `"<ns>/<name>:<port>"` (or the legacy `"<name>:<port>"`, which maps to
    the default namespace) into a `ServiceWithPort`. The `[]` arm of the
    inner match is unreachable because `splitGo` never returns `[]`. -/
def parseServiceNamePort (value : GoStr) : Option ServiceWithPort :=
  match splitGo ':' value with
  | s0 :: s1 :: _ =>
    match parseInt32 s1 with
    | none => none
    | some port64 =>
      match splitGo '/' s0 with
      | [sub] => some ⟨NamespaceDefault, sub, port64⟩
      | sub0 :: sub1 :: _ => some ⟨sub0, sub1, port64⟩
      | [] => none
  | _ => none

/-- `formatServiceNamePort` from `pkg/k8s/tcpportmapping.go`:
    `fmt.Sprintf("%s/%s:%d", namespace, name, port)`. Argument order (name
    first, then namespace) follows the Go signature. -/
def formatServiceNamePort (name ns : GoStr) (port : Int) : GoStr :=
  ns ++ '/' :: name ++ ':' :: intToGoStr port

/-- The in-memory table `map[int32]*ServiceWithPort`, embedded as an
    association list with unique keys (Go map semantics). -/
abbrev Table := List (Int × ServiceWithPort)

/-- Go map lookup `table[port]`. -/
def tableFind? (t : Table) (port : Int) : Option ServiceWithPort :=
  (t.find? (fun e => e.1 == port)).map (fun e => e.2)

/-- Go map assignment `table[port] = svc`: replaces an existing binding of
    the key, otherwise appends. -/
def tableInsert (t : Table) (port : Int) (svc : ServiceWithPort) : Table :=
  match t with
  | [] => [(port, svc)]
  | e :: rest => if e.1 = port then (port, svc) :: rest else e :: tableInsert rest port svc

/-- `TCPPortMapping` from `pkg/k8s/tcpportmapping.go`. The Kubernetes client,
    lister and ConfigMap coordinates are external I/O handles and are not part
    of the state; persistence outcomes enter as explicit oracles below. -/
structure TCPPortMapping where
  minPort : Int
  maxPort : Int
  table : Table
deriving DecidableEq

/-- Outcomes of `TCPPortMapping.Add`: `exhausted` models
    `errors.New("unable to find an available port")`, and `saveFailed`
    models the wrapped `saveState` persistence error. -/
inductive AddError
  | exhausted
  | saveFailed
deriving DecidableEq

namespace TCPPortMapping

/-- `TCPPortMapping.Find`: scans the table for an entry whose value matches
    the given service on name, namespace and port, returning its key. -/
def Find (m : TCPPortMapping) (svc : ServiceWithPort) : Option Int :=
  (m.table.find? (fun e =>
    e.2.Name == svc.Name && e.2.Namespace == svc.Namespace && e.2.Port == svc.Port)).map
    (fun e => e.1)

/-- `TCPPortMapping.Get`: the table lookup `m.table[srcPort]`. -/
def Get (m : TCPPortMapping) (srcPort : Int) : Option ServiceWithPort :=
  tableFind? m.table srcPort

/-- The scan loop of `TCPPortMapping.Add`: `for i := minPort; i < maxPort+1; i++`,
    claiming the first port absent from the table. `saveOk` is the oracle for
    the subsequent `saveState` call: when it fails, the in-memory claim is kept
    and the error is returned (the Go code deliberately does not roll back). -/
def addLoop (saveOk : Bool) (svc : ServiceWithPort) :
    Nat → Int → Table → Table × Except AddError Int
  | 0, _, t => (t, .error .exhausted)
  | fuel + 1, i, t =>
    match tableFind? t i with
    | some _ => addLoop saveOk svc fuel (i + 1) t
    | none =>
      let t' := tableInsert t i svc
      if saveOk then (t', .ok i) else (t', .error .saveFailed)

/-- `TCPPortMapping.Add`. The loop runs `maxPort + 1 - minPort` iterations
    starting at `minPort`; an empty range returns the exhaustion error. -/
def Add (saveOk : Bool) (m : TCPPortMapping) (svc : ServiceWithPort) :
    TCPPortMapping × Except AddError Int :=
  let r := addLoop saveOk svc (m.maxPort + 1 - m.minPort).toNat m.minPort m.table
  ({ m with table := r.1 }, r.2)

/-- `TCPPortMapping.loadState`, applied to the `Data` entries of the fetched
    ConfigMap: each entry whose key parses as an `int32` and whose value
    parses as a service is inserted; every other entry is skipped. -/
def loadState (t : Table) (data : List (GoStr × GoStr)) : Table :=
  data.foldl (fun acc kv =>
    match parseInt32 kv.1 with
    | none => acc
    | some port =>
      match parseServiceNamePort kv.2 with
      | none => acc
      | some svc => tableInsert acc port svc) t

/-- The range invariant of the spec's `PortAssignment` model: every assigned
    port lies within `[minPort, maxPort]`. -/
def InRange (m : TCPPortMapping) : Prop :=
  ∀ e ∈ m.table, m.minPort ≤ e.1 ∧ e.1 ≤ m.maxPort

/-- The injectivity invariant of the spec's `PortAssignment` model: no
    `ServiceWithPort` appears under two distinct ports. -/
def InjectiveValues (m : TCPPortMapping) : Prop :=
  ∀ e₁ ∈ m.table, ∀ e₂ ∈ m.table, e₁.2 = e₂.2 → e₁.1 = e₂.1

end TCPPortMapping

/-- `NewTCPPortMapping` (success path): rehydrates the table from the
    persisted ConfigMap data into a fresh empty table. A fetch error of the
    ConfigMap itself aborts construction in Go (a fatal bootstrap failure)
    and is not part of the rehydrated state. -/
def NewTCPPortMapping (minPort maxPort : Int) (data : List (GoStr × GoStr)) : TCPPortMapping :=
  { minPort := minPort, maxPort := maxPort, table := TCPPortMapping.loadState [] data }

/-- `Controller.getTCPPort`: returns the existing assignment for
    `(serviceName, serviceNamespace, servicePort)` if any, else calls `Add`
    (whose error it wraps and propagates). -/
def getTCPPort (saveOk : Bool) (m : TCPPortMapping)
    (serviceName serviceNamespace : GoStr) (servicePort : Int) :
    TCPPortMapping × Except AddError Int :=
  let svc : ServiceWithPort := ⟨serviceNamespace, serviceName, servicePort⟩
  match TCPPortMapping.Find m svc with
  | some port => (m, .ok port)
  | none => TCPPortMapping.Add saveOk m svc

/-- Tags carried on the refresh channel (`k8s.ConfigMessageChan...`): the
    handler sends a force tag for shadow-service mutations and a normal tag
    otherwise. -/
inductive ConfigMessage
  | normal
  | force
deriving DecidableEq

/-- A data-plane (mesh) pod as the reconciler observes it: the readiness of
    its container statuses, and the outcome oracle of an HTTP configuration
    push to it (the final result after the bounded backoff retries). -/
structure MeshPod where
  containersReady : List Bool
  pushOk : Bool
deriving DecidableEq

/-- The unready filter of `deployConfigurationToUnreadyNodes`: a pod is
    selected when at least one container status reports `Ready == false`. -/
def isUnready (p : MeshPod) : Bool :=
  p.containersReady.any (fun r => !r)

/-- `Controller.deployToPods`: one parallel push per pod, waiting for all;
    the cycle result is success exactly when every push succeeded. -/
def deployToPods (pods : List MeshPod) : Bool :=
  pods.all (fun p => p.pushOk)

/-- `Controller.deployConfiguration`: fails when the mesh-pod list is empty
    (`unable to find any active mesh pods`), else pushes to every pod. -/
def deployConfiguration (pods : List MeshPod) : Bool :=
  if pods.isEmpty then false else deployToPods pods

/-- `Controller.deployConfigurationToUnreadyNodes`: fails when the mesh-pod
    list is empty, else pushes only to the pods with an unready container
    (succeeding vacuously when that filtered list is empty). -/
def deployConfigurationToUnreadyNodes (pods : List MeshPod) : Bool :=
  if pods.isEmpty then false else deployToPods (pods.filter isUnready)

/-- The reconciler's mutable state in `Controller.Run`: the
    `lastConfiguration` slot (`safe.Safe`, nil until first set — hence
    `Option`) and the API readiness flag (set by `api.EnableReadiness`). -/
structure ControllerState (Config : Type) where
  lastConfiguration : Option Config
  readiness : Bool
deriving DecidableEq

/-- One arrival at the `select` of `Controller.Run`, with its environment
    oracles: the refresh message together with the result of
    `provider.BuildConfig` (`none` models a build error), and the mesh-pod
    list returned by the pod lister for the deploy of that iteration. -/
inductive ControllerEvent (Config : Type)
  | stop
  | refresh (message : ConfigMessage) (build : Option Config) (pods : List MeshPod)
  | tick (pods : List MeshPod)

/-- How one iteration of the `Controller.Run` loop ends: continue with a new
    state (`break` out of the select), return cleanly (stop channel), return
    an error (`return confErr`), or panic (the nil type assertion in the
    tick branch). -/
inductive StepResult (Config : Type)
  | next (s : ControllerState Config)
  | stopped
  | exitedWithError
  | panicked
deriving DecidableEq

/-- One iteration of the `Controller.Run` select loop. Returns the loop
    outcome and the list of per-pod push results performed during the
    iteration (empty when no push was attempted). The refresh branch stores
    the built configuration before deploying; a deploy error only breaks the
    select; readiness is enabled after a successful deploy. The tick branch
    type-asserts `lastConfiguration.Get().(*dynamic.Configuration)`, which
    panics while the slot is still nil. -/
def runStep {Config : Type} [DecidableEq Config] :
    ControllerState Config → ControllerEvent Config → StepResult Config × List Bool
  | _, .stop => (.stopped, [])
  | _, .refresh _ none _ => (.exitedWithError, [])
  | s, .refresh message (some conf) pods =>
    if message = .force ∨ s.lastConfiguration ≠ some conf then
      let s' : ControllerState Config := { s with lastConfiguration := some conf }
      if pods.isEmpty then (.next s', [])
      else
        let pushes := pods.map (fun p => p.pushOk)
        if deployToPods pods then (.next { s' with readiness := true }, pushes)
        else (.next s', pushes)
    else (.next s, [])
  | s, .tick pods =>
    match s.lastConfiguration with
    | none => (.panicked, [])
    | some _ =>
      if pods.isEmpty then (.next s, [])
      else
        let unready := pods.filter isUnready
        let pushes := unready.map (fun p => p.pushOk)
        if deployToPods unready then (.next { s with readiness := true }, pushes)
        else (.next s, pushes)

/-- Run the loop over a list of events, as long as iterations continue.
    Returns the final state and the total number of successful pushes
    performed along the trace. -/
def runTrace {Config : Type} [DecidableEq Config] :
    ControllerState Config → List (ControllerEvent Config) → ControllerState Config × Nat
  | s, [] => (s, 0)
  | s, ev :: evs =>
    match runStep s ev with
    | (.next s', pushes) =>
      let r := runTrace s' evs
      (r.1, pushes.count true + r.2)
    | (_, pushes) => (s, pushes.count true)

/-- `corev1.Protocol` restricted to the values occurring in services. -/
inductive PortProtocol
  | TCP
  | UDP
  | SCTP
deriving DecidableEq

/-- The fields of a user service's `corev1.ServicePort` read by
    `createMeshService`: name, protocol and port. -/
structure UserServicePort where
  name : GoStr
  protocol : PortProtocol
  port : Int
deriving DecidableEq

/-- A port entry of the produced shadow service (`corev1.ServicePort` with
    `Name`, `Port`, `TargetPort` set; `TargetPort` via `intstr.FromInt`). -/
structure MeshServicePort where
  name : GoStr
  port : Int
  targetPort : Int
deriving DecidableEq

/-- Modelled from the spec: the constant `k8s.ServiceTypeTCP` lives in
    `pkg/k8s` which is not under `src/`; per the spec the service-mode
    values are `"http"` and `"tcp"`. -/
def ServiceTypeTCP : GoStr := gs "tcp"

/-- Modelled from the spec: the HTTP service mode value `"http"`. -/
def ServiceTypeHTTP : GoStr := gs "http"

/-- The ports loop of `Controller.createMeshService` (lines 318-341): iterate
    the user service's ports with the slice index `id`; skip non-TCP-protocol
    ports (the index still advances); `targetPort` is `5000 + id` unless the
    service mode is `tcp`, in which case it is the `getTCPPort` result — and
    on a `getTCPPort` error the port is skipped and the loop continues. The
    allocator state is threaded through the `getTCPPort` calls. -/
def buildMeshPortsAux (saveOk : Bool) (serviceMode svcName svcNamespace : GoStr) :
    Nat → TCPPortMapping → List UserServicePort → List MeshServicePort × TCPPortMapping
  | _, m, [] => ([], m)
  | id, m, sp :: rest =>
    if sp.protocol ≠ PortProtocol.TCP then
      buildMeshPortsAux saveOk serviceMode svcName svcNamespace (id + 1) m rest
    else if serviceMode = ServiceTypeTCP then
      match getTCPPort saveOk m svcName svcNamespace sp.port with
      | (m', Except.ok port) =>
        let r := buildMeshPortsAux saveOk serviceMode svcName svcNamespace (id + 1) m' rest
        (⟨sp.name, sp.port, port⟩ :: r.1, r.2)
      | (m', Except.error _) =>
        buildMeshPortsAux saveOk serviceMode svcName svcNamespace (id + 1) m' rest
    else
      let r := buildMeshPortsAux saveOk serviceMode svcName svcNamespace (id + 1) m rest
      (⟨sp.name, sp.port, 5000 + (id : Int)⟩ :: r.1, r.2)

/-- The shadow-service ports array built by `createMeshService`, starting at
    index 0, together with the allocator state after all allocations. -/
def buildMeshPorts (saveOk : Bool) (serviceMode svcName svcNamespace : GoStr)
    (m : TCPPortMapping) (ports : List UserServicePort) :
    List MeshServicePort × TCPPortMapping :=
  buildMeshPortsAux saveOk serviceMode svcName svcNamespace 0 m ports

/-! ### Helper lemmas: decimal formatting and parsing -/

lemma digitVal?_digitToChar {d : Nat} (hd : d < 10) : digitVal? (digitToChar d) = some d := by
  interval_cases d <;> decide

lemma digitToChar_ne {d : Nat} (hd : d < 10) :
    digitToChar d ≠ ':' ∧ digitToChar d ≠ '/' ∧ digitToChar d ≠ '-' ∧ digitToChar d ≠ '+' := by
  interval_cases d <;> decide

lemma mem_natDigitsAux : ∀ fuel n : Nat, ∀ c ∈ natDigitsAux fuel n, ∃ d, d < 10 ∧ c = digitToChar d := by
  intro fuel
  induction fuel with
  | zero => intro n c hc; simp [natDigitsAux] at hc
  | succ f ih =>
    intro n c hc
    by_cases hn : n = 0
    · simp [natDigitsAux, hn] at hc
    · rw [natDigitsAux, if_neg hn] at hc
      rcases List.mem_append.1 hc with h1 | h2
      · exact ih _ c h1
      · refine ⟨n % 10, Nat.mod_lt _ (by norm_num), ?_⟩
        simpa using h2

lemma mem_natDigits {n : Nat} : ∀ c ∈ natDigits n, ∃ d, d < 10 ∧ c = digitToChar d := by
  intro c hc
  by_cases hn : n = 0
  · refine ⟨0, by norm_num, ?_⟩
    simp [natDigits, hn] at hc
    simp [hc, digitToChar]
  · rw [natDigits, if_neg hn] at hc
    exact mem_natDigitsAux n n c hc

lemma natDigits_ne_nil (n : Nat) : natDigits n ≠ [] := by
  by_cases hn : n = 0
  · simp [natDigits, hn]
  · rw [natDigits, if_neg hn]
    cases n with
    | zero => exact absurd rfl hn
    | succ f => simp [natDigitsAux]

lemma parseNatDigits_append (a b : List Char) (acc : Nat) :
    parseNatDigits (a ++ b) acc = (parseNatDigits a acc).bind (fun x => parseNatDigits b x) := by
  induction a generalizing acc with
  | nil => simp [parseNatDigits]
  | cons c cs ih =>
    simp only [List.cons_append, parseNatDigits]
    cases h : digitVal? c with
    | some d => simp [h, ih]
    | none => simp [h]

lemma parseNatDigits_natDigitsAux :
    ∀ fuel n acc : Nat, n ≤ fuel →
      parseNatDigits (natDigitsAux fuel n) acc =
        some (acc * 10 ^ (natDigitsAux fuel n).length + n) := by
  intro fuel
  induction fuel with
  | zero =>
    intro n acc hn
    interval_cases n
    simp [natDigitsAux, parseNatDigits]
  | succ f ih =>
    intro n acc hn
    by_cases h0 : n = 0
    · simp [natDigitsAux, h0, parseNatDigits]
    · have hdiv : n / 10 < n := Nat.div_lt_self (Nat.pos_of_ne_zero h0) (by norm_num)
      have hle : n / 10 ≤ f := by omega
      rw [natDigitsAux, if_neg h0, parseNatDigits_append, ih _ acc hle]
      have hmod : n % 10 < 10 := Nat.mod_lt _ (by norm_num)
      simp only [Option.some_bind, parseNatDigits, digitVal?_digitToChar hmod,
        List.length_append, List.length_cons, List.length_nil]
      congr 1
      have hpow : 10 ^ ((natDigitsAux f (n / 10)).length + (0 + 1)) =
          10 ^ (natDigitsAux f (n / 10)).length * 10 := by
        rw [Nat.zero_add, pow_succ]
      rw [hpow]
      have h1 : (acc * 10 ^ (natDigitsAux f (n / 10)).length + n / 10) * 10 + n % 10
          = acc * (10 ^ (natDigitsAux f (n / 10)).length * 10) + (10 * (n / 10) + n % 10) := by
        ring
      rw [h1, Nat.div_add_mod]

lemma parseNatDigits_natDigits (n : Nat) : parseNatDigits (natDigits n) 0 = some n := by
  by_cases hn : n = 0
  · simp [natDigits, hn, parseNatDigits, digitVal?]
  · rw [natDigits, if_neg hn, parseNatDigits_natDigitsAux n n 0 le_rfl]
    simp

lemma parseNatDigitsNE_natDigits (n : Nat) : parseNatDigitsNE (natDigits n) = some n := by
  cases h : natDigits n with
  | nil => exact absurd h (natDigits_ne_nil n)
  | cons c cs =>
    have : parseNatDigitsNE (c :: cs) = parseNatDigits (c :: cs) 0 := rfl
    rw [this, ← h, parseNatDigits_natDigits]

lemma parseInt32_intToGoStr {n : Int} (hlo : -(2 ^ 31) ≤ n) (hhi : n < 2 ^ 31) :
    parseInt32 (intToGoStr n) = some n := by
  by_cases hn : n < 0
  · rw [intToGoStr, if_pos hn]
    have habs : (n.natAbs : Int) = -n := by omega
    have hrange : n.natAbs ≤ 2 ^ 31 := by omega
    have h1 : parseInt32 ('-' :: natDigits n.natAbs) = some (-(n.natAbs : Int)) := by
      simp [parseInt32, parseNatDigitsNE_natDigits]
      omega
    rw [h1, habs, neg_neg]
  · rw [intToGoStr, if_neg hn]
    cases h : natDigits n.toNat with
    | nil => exact absurd h (natDigits_ne_nil _)
    | cons c cs =>
      have hcmem : c ∈ natDigits n.toNat := by rw [h]; exact List.mem_cons_self c cs
      obtain ⟨d, hd, hcd⟩ := mem_natDigits c hcmem
      obtain ⟨_, _, hdash, hplus⟩ := digitToChar_ne hd
      have hc1 : ¬(c = '-') := by rw [hcd]; exact hdash
      have hc2 : ¬(c = '+') := by rw [hcd]; exact hplus
      have hne : parseNatDigitsNE (c :: cs) = some n.toNat := by
        rw [← h, parseNatDigitsNE_natDigits]
      have hrange : n.toNat < 2 ^ 31 := by omega
      have h1 : parseInt32 (c :: cs) = some ((n.toNat : Int)) := by
        simp [parseInt32, hc1, hc2, hne]
        omega
      rw [h1]
      congr 1
      exact Int.toNat_of_nonneg (by omega)

/-! ### Helper lemmas: Go string splitting -/

lemma splitGo_ne_nil (sep : Char) (s : GoStr) : splitGo sep s ≠ [] := by
  induction s with
  | nil => simp [splitGo]
  | cons c cs ih =>
    by_cases h : c = sep
    · simp [splitGo, h]
    · rw [splitGo, if_neg h]
      cases hs : splitGo sep cs <;> simp

lemma splitGo_no_sep (sep : Char) (s : GoStr) (h : ∀ c ∈ s, c ≠ sep) :
    splitGo sep s = [s] := by
  induction s with
  | nil => rfl
  | cons c cs ih =>
    have hc : c ≠ sep := h c (List.mem_cons_self c cs)
    have ih' : splitGo sep cs = [cs] := ih (fun x hx => h x (List.mem_cons_of_mem c hx))
    rw [splitGo, if_neg hc, ih']

lemma splitGo_append (sep : Char) (a b : GoStr) (h : ∀ c ∈ a, c ≠ sep) :
    splitGo sep (a ++ sep :: b) = a :: splitGo sep b := by
  induction a with
  | nil => simp [splitGo]
  | cons c cs ih =>
    have hc : c ≠ sep := h c (List.mem_cons_self c cs)
    have ih' : splitGo sep (cs ++ sep :: b) = cs :: splitGo sep b :=
      ih (fun x hx => h x (List.mem_cons_of_mem c hx))
    rw [List.cons_append, splitGo, if_neg hc, ih']

/-! ### Helper lemmas: the allocator table and scan loop -/

lemma mem_tableInsert (t : Table) (p : Int) (svc : ServiceWithPort) :
    ∀ e ∈ tableInsert t p svc, e = (p, svc) ∨ e ∈ t := by
  induction t with
  | nil =>
    intro e he
    left
    simpa [tableInsert] using he
  | cons a rest ih =>
    intro e he
    rw [tableInsert] at he
    by_cases hk : a.1 = p
    · rw [if_pos hk] at he
      rcases List.mem_cons.1 he with h | h
      · left; exact h
      · right; exact List.mem_cons_of_mem a h
    · rw [if_neg hk] at he
      rcases List.mem_cons.1 he with h | h
      · right; rw [h]; exact List.mem_cons_self a rest
      · rcases ih e h with h1 | h1
        · left; exact h1
        · right; exact List.mem_cons_of_mem a h1

namespace TCPPortMapping

lemma addLoop_all_assigned (saveOk : Bool) (svc : ServiceWithPort) :
    ∀ (fuel : Nat) (i : Int) (t : Table),
      (∀ q : Int, i ≤ q → q < i + fuel → (tableFind? t q).isSome) →
      addLoop saveOk svc fuel i t = (t, .error .exhausted) := by
  intro fuel
  induction fuel with
  | zero => intro i t _; rfl
  | succ f ih =>
    intro i t h
    have hi : (tableFind? t i).isSome := h i le_rfl (by omega)
    cases hfind : tableFind? t i with
    | none => rw [hfind] at hi; simp at hi
    | some v =>
      simp only [addLoop, hfind]
      exact ih (i + 1) t (fun q hq1 hq2 => h q (by omega) (by omega))

lemma addLoop_first_free (saveOk : Bool) (svc : ServiceWithPort) :
    ∀ (fuel : Nat) (i : Int) (t : Table) (p : Int),
      i ≤ p → p < i + fuel →
      tableFind? t p = none →
      (∀ q : Int, i ≤ q → q < p → (tableFind? t q).isSome) →
      addLoop saveOk svc fuel i t =
        (tableInsert t p svc, if saveOk then .ok p else .error .saveFailed) := by
  intro fuel
  induction fuel with
  | zero => intro i t p h1 h2 _ _; exfalso; omega
  | succ f ih =>
    intro i t p h1 h2 hp hbelow
    by_cases hip : i = p
    · subst hip
      simp only [addLoop, hp]
      cases saveOk <;> simp
    · have hlt : i < p := lt_of_le_of_ne h1 hip
      have hi : (tableFind? t i).isSome := hbelow i le_rfl hlt
      cases hfind : tableFind? t i with
      | none => rw [hfind] at hi; simp at hi
      | some v =>
        simp only [addLoop, hfind]
        exact ih (i + 1) t p (by omega) (by omega) hp (fun q hq1 hq2 => hbelow q (by omega) hq2)

lemma addLoop_table_cases (saveOk : Bool) (svc : ServiceWithPort) :
    ∀ (fuel : Nat) (i : Int) (t : Table),
      (addLoop saveOk svc fuel i t).1 = t ∨
      ∃ p : Int, i ≤ p ∧ p < i + fuel ∧ tableFind? t p = none ∧
        (addLoop saveOk svc fuel i t).1 = tableInsert t p svc := by
  intro fuel
  induction fuel with
  | zero => intro i t; left; rfl
  | succ f ih =>
    intro i t
    cases hfind : tableFind? t i with
    | some v =>
      rcases ih (i + 1) t with h | ⟨p, hp1, hp2, hp3, hp4⟩
      · left
        simp only [addLoop, hfind]
        exact h
      · right
        refine ⟨p, by omega, by omega, hp3, ?_⟩
        simp only [addLoop, hfind]
        exact hp4
    | none =>
      right
      refine ⟨i, le_rfl, by omega, hfind, ?_⟩
      simp only [addLoop, hfind]
      cases saveOk <;> simp

lemma findPred_eq_true_iff (svc : ServiceWithPort) (e : Int × ServiceWithPort) :
    (e.2.Name == svc.Name && e.2.Namespace == svc.Namespace && e.2.Port == svc.Port) = true ↔
      e.2 = svc := by
  obtain ⟨k, v⟩ := e
  obtain ⟨vns, vname, vport⟩ := v
  obtain ⟨sns, sname, sport⟩ := svc
  simp only [Bool.and_eq_true, beq_iff_eq, ServiceWithPort.mk.injEq]
  tauto

lemma Find_eq_none_iff (m : TCPPortMapping) (svc : ServiceWithPort) :
    Find m svc = none ↔ ∀ e ∈ m.table, e.2 ≠ svc := by
  simp only [Find, Option.map_eq_none', List.find?_eq_none]
  constructor
  · intro h e he hv
    exact h e he ((findPred_eq_true_iff svc e).2 hv)
  · intro h e he hp
    exact h e he ((findPred_eq_true_iff svc e).1 hp)

lemma find?_tableInsert_fresh (t : Table) (p : Int) (svc : ServiceWithPort)
    (h : ∀ e ∈ t, e.2 ≠ svc) :
    ((tableInsert t p svc).find? (fun e =>
      e.2.Name == svc.Name && e.2.Namespace == svc.Namespace && e.2.Port == svc.Port)) =
      some (p, svc) := by
  induction t with
  | nil => simp [tableInsert, List.find?]
  | cons a rest ih =>
    rw [tableInsert]
    by_cases hk : a.1 = p
    · rw [if_pos hk]
      simp [List.find?]
    · rw [if_neg hk]
      have ha : ¬((a.2.Name == svc.Name && a.2.Namespace == svc.Namespace &&
          a.2.Port == svc.Port) = true) := by
        intro hcontra
        exact h a (List.mem_cons_self a rest) ((findPred_eq_true_iff svc a).1 hcontra)
      rw [List.find?]
      rw [Bool.not_eq_true] at ha
      rw [ha]
      exact ih (fun e he => h e (List.mem_cons_of_mem a he))

lemma Find_tableInsert_fresh (m : TCPPortMapping) (p : Int) (svc : ServiceWithPort)
    (h : ∀ e ∈ m.table, e.2 ≠ svc) :
    Find { m with table := tableInsert m.table p svc } svc = some p := by
  simp only [Find, find?_tableInsert_fresh m.table p svc h, Option.map_some']

lemma loadState_skip_key (t : Table) (kv : GoStr × GoStr) (rest : List (GoStr × GoStr))
    (hk : parseInt32 kv.1 = none) :
    loadState t (kv :: rest) = loadState t rest := by
  simp only [loadState, List.foldl_cons, hk]

lemma loadState_skip_value (t : Table) (kv : GoStr × GoStr) (rest : List (GoStr × GoStr))
    (p : Int) (hk : parseInt32 kv.1 = some p) (hv : parseServiceNamePort kv.2 = none) :
    loadState t (kv :: rest) = loadState t rest := by
  simp only [loadState, List.foldl_cons, hk, hv]

lemma loadState_cons_ok (t : Table) (kv : GoStr × GoStr) (rest : List (GoStr × GoStr))
    (p : Int) (svc : ServiceWithPort)
    (hk : parseInt32 kv.1 = some p) (hv : parseServiceNamePort kv.2 = some svc) :
    loadState t (kv :: rest) = loadState (tableInsert t p svc) rest := by
  simp only [loadState, List.foldl_cons, hk, hv]

lemma mem_loadState :
    ∀ (data : List (GoStr × GoStr)) (t : Table), ∀ e ∈ loadState t data,
      e ∈ t ∨ ∃ kv ∈ data, parseInt32 kv.1 = some e.1 ∧ parseServiceNamePort kv.2 = some e.2 := by
  intro data
  induction data with
  | nil => intro t e he; left; exact he
  | cons kv rest ih =>
    intro t e he
    cases hk : parseInt32 kv.1 with
    | none =>
      rw [loadState_skip_key t kv rest hk] at he
      rcases ih t e he with h | ⟨kv', hkv', hp⟩
      · left; exact h
      · right; exact ⟨kv', List.mem_cons_of_mem kv hkv', hp⟩
    | some port =>
      cases hv : parseServiceNamePort kv.2 with
      | none =>
        rw [loadState_skip_value t kv rest port hk hv] at he
        rcases ih t e he with h | ⟨kv', hkv', hp⟩
        · left; exact h
        · right; exact ⟨kv', List.mem_cons_of_mem kv hkv', hp⟩
      | some svc =>
        rw [loadState_cons_ok t kv rest port svc hk hv] at he
        rcases ih _ e he with h | ⟨kv', hkv', hp⟩
        · rcases mem_tableInsert t port svc e h with h1 | h1
          · right
            refine ⟨kv, List.mem_cons_self kv rest, ?_, ?_⟩
            · rw [h1]; exact hk
            · rw [h1]; exact hv
          · left; exact h1
        · right; exact ⟨kv', List.mem_cons_of_mem kv hkv', hp⟩

end TCPPortMapping

/-! ### Helper lemmas: getTCPPort and invariant preservation -/

lemma getTCPPort_find_hit (saveOk : Bool) (m : TCPPortMapping) (name ns : GoStr)
    (port p : Int) (h : TCPPortMapping.Find m ⟨ns, name, port⟩ = some p) :
    getTCPPort saveOk m name ns port = (m, .ok p) := by
  simp only [getTCPPort, h]

lemma getTCPPort_find_miss (saveOk : Bool) (m : TCPPortMapping) (name ns : GoStr)
    (port : Int) (h : TCPPortMapping.Find m ⟨ns, name, port⟩ = none) :
    getTCPPort saveOk m name ns port = TCPPortMapping.Add saveOk m ⟨ns, name, port⟩ := by
  simp only [getTCPPort, h]

lemma Add_components (saveOk : Bool) (m : TCPPortMapping) (svc : ServiceWithPort) :
    (TCPPortMapping.Add saveOk m svc).1.minPort = m.minPort ∧
    (TCPPortMapping.Add saveOk m svc).1.maxPort = m.maxPort ∧
    ((TCPPortMapping.Add saveOk m svc).1.table = m.table ∨
      ∃ p : Int, m.minPort ≤ p ∧ p ≤ m.maxPort ∧ tableFind? m.table p = none ∧
        (TCPPortMapping.Add saveOk m svc).1.table = tableInsert m.table p svc) := by
  refine ⟨rfl, rfl, ?_⟩
  rcases TCPPortMapping.addLoop_table_cases saveOk svc (m.maxPort + 1 - m.minPort).toNat
      m.minPort m.table with hc | ⟨p, hp1, hp2, hp3, hc⟩
  · left; exact hc
  · right; exact ⟨p, hp1, by omega, hp3, hc⟩

lemma InRange_Add (saveOk : Bool) (m : TCPPortMapping) (svc : ServiceWithPort)
    (h : TCPPortMapping.InRange m) : TCPPortMapping.InRange (TCPPortMapping.Add saveOk m svc).1 := by
  obtain ⟨hmin, hmax, hcases⟩ := Add_components saveOk m svc
  intro e he
  rw [hmin, hmax]
  rcases hcases with hc | ⟨p, hp1, hp2, _, hc⟩
  · rw [hc] at he
    exact h e he
  · rw [hc] at he
    rcases mem_tableInsert m.table p svc e he with h1 | h1
    · rw [h1]
      exact ⟨hp1, hp2⟩
    · exact h e h1

lemma InjectiveValues_Add (saveOk : Bool) (m : TCPPortMapping) (svc : ServiceWithPort)
    (hinj : TCPPortMapping.InjectiveValues m) (hfresh : ∀ e ∈ m.table, e.2 ≠ svc) :
    TCPPortMapping.InjectiveValues (TCPPortMapping.Add saveOk m svc).1 := by
  obtain ⟨_, _, hcases⟩ := Add_components saveOk m svc
  intro e1 he1 e2 he2 hv
  rcases hcases with hc | ⟨p, _, _, _, hc⟩
  · rw [hc] at he1 he2
    exact hinj e1 he1 e2 he2 hv
  · rw [hc] at he1 he2
    rcases mem_tableInsert m.table p svc e1 he1 with h1 | h1 <;>
      rcases mem_tableInsert m.table p svc e2 he2 with h2 | h2
    · rw [h1, h2]
    · exfalso
      apply hfresh e2 h2
      rw [← hv, h1]
    · exfalso
      apply hfresh e1 h1
      rw [hv, h2]
    · exact hinj e1 h1 e2 h2 hv

lemma getTCPPort_preserves (saveOk : Bool) (m : TCPPortMapping) (name ns : GoStr) (port : Int)
    (hr : TCPPortMapping.InRange m) (hinj : TCPPortMapping.InjectiveValues m) :
    TCPPortMapping.InRange (getTCPPort saveOk m name ns port).1 ∧
      TCPPortMapping.InjectiveValues (getTCPPort saveOk m name ns port).1 := by
  cases hf : TCPPortMapping.Find m ⟨ns, name, port⟩ with
  | some p =>
    rw [getTCPPort_find_hit saveOk m name ns port p hf]
    exact ⟨hr, hinj⟩
  | none =>
    rw [getTCPPort_find_miss saveOk m name ns port hf]
    have hfresh := (TCPPortMapping.Find_eq_none_iff m ⟨ns, name, port⟩).1 hf
    exact ⟨InRange_Add saveOk m _ hr, InjectiveValues_Add saveOk m _ hinj hfresh⟩

instance (m : TCPPortMapping) : Decidable (TCPPortMapping.InRange m) :=
  inferInstanceAs (Decidable (∀ e ∈ m.table, m.minPort ≤ e.1 ∧ e.1 ≤ m.maxPort))

instance (m : TCPPortMapping) : Decidable (TCPPortMapping.InjectiveValues m) :=
  inferInstanceAs (Decidable (∀ e₁ ∈ m.table, ∀ e₂ ∈ m.table, e₁.2 = e₂.2 → e₁.1 = e₂.1))

/-! ### Helper lemmas: the shadow-service ports loop -/

lemma buildMeshPortsAux_http (saveOk : Bool) (serviceMode svcName svcNamespace : GoStr)
    (hmode : serviceMode ≠ ServiceTypeTCP) :
    ∀ (ports : List UserServicePort) (id : Nat) (m : TCPPortMapping),
      buildMeshPortsAux saveOk serviceMode svcName svcNamespace id m ports =
        ((ports.enumFrom id).filterMap (fun q =>
          if q.2.protocol = PortProtocol.TCP then
            some ⟨q.2.name, q.2.port, 5000 + (q.1 : Int)⟩ else none), m) := by
  intro ports
  induction ports with
  | nil => intro id m; rfl
  | cons sp rest ih =>
    intro id m
    by_cases hp : sp.protocol = PortProtocol.TCP
    · have hnn : ¬(sp.protocol ≠ PortProtocol.TCP) := by simp [hp]
      simp only [buildMeshPortsAux, if_neg hnn, if_neg hmode, ih]
      simp [List.enumFrom, hp]
    · simp only [buildMeshPortsAux, if_pos hp, ih]
      simp [List.enumFrom, hp]

/-! ### Claim theorems -/

/-- C1: in every allocator state with at least one unassigned port in
    `[minPort, maxPort]`, `Add` (with a successful save) claims the lowest
    unassigned port of the range for the ref and returns it; when every port
    of the range is assigned, `Add` fails with the exhaustion error; and
    `getTCPPort` on a ref that already has an assignment returns the existing
    port with the allocator state untouched (no new slot is consumed). -/
theorem c1_allocator_contract :
    (∀ (saveOk : Bool) (m : TCPPortMapping) (svc : ServiceWithPort),
      (∀ q : Int, m.minPort ≤ q → q ≤ m.maxPort → (tableFind? m.table q).isSome) →
      TCPPortMapping.Add saveOk m svc = (m, .error .exhausted)) ∧
    (∀ (m : TCPPortMapping) (svc : ServiceWithPort) (p : Int),
      m.minPort ≤ p → p ≤ m.maxPort →
      tableFind? m.table p = none →
      (∀ q : Int, m.minPort ≤ q → q < p → (tableFind? m.table q).isSome) →
      TCPPortMapping.Add true m svc = ({ m with table := tableInsert m.table p svc }, .ok p)) ∧
    (∀ (saveOk : Bool) (m : TCPPortMapping) (name ns : GoStr) (port p : Int),
      TCPPortMapping.Find m ⟨ns, name, port⟩ = some p →
      getTCPPort saveOk m name ns port = (m, .ok p)) := by
  refine ⟨?_, ?_, ?_⟩
  · intro saveOk m svc h
    have h1 := TCPPortMapping.addLoop_all_assigned saveOk svc (m.maxPort + 1 - m.minPort).toNat
      m.minPort m.table (fun q hq1 hq2 => h q hq1 (by omega))
    simp only [TCPPortMapping.Add, h1]
  · intro m svc p h1 h2 hp hbelow
    have hfree := TCPPortMapping.addLoop_first_free true svc (m.maxPort + 1 - m.minPort).toNat
      m.minPort m.table p h1 (by omega) hp hbelow
    simp only [TCPPortMapping.Add, hfree, if_pos]
  · intro saveOk m name ns port p h
    exact getTCPPort_find_hit saveOk m name ns port p h

/-- Witness for C1: in the two-port range `[10000, 10001]` with an empty
    table, adding a ref claims port 10000. -/
theorem c1_witness :
    TCPPortMapping.Add true ⟨10000, 10001, []⟩ ⟨gs "default", gs "db", 5432⟩ =
      (⟨10000, 10001, [(10000, ⟨gs "default", gs "db", 5432⟩)]⟩, .ok 10000) := by
  have h := c1_allocator_contract.2.1 ⟨10000, 10001, []⟩ ⟨gs "default", gs "db", 5432⟩ 10000
    (by norm_num) (by norm_num) (by decide)
    (by intro q hq1 hq2; exact absurd (hq1.trans_lt hq2) (by decide))
  simpa [tableInsert] using h

/-- C5: when `Add` claims a port in memory but the persistence write fails,
    the in-memory claim is retained (the table entry is not rolled back), the
    error is surfaced to the caller, and `Find` on the resulting state still
    reports the claimed port. -/
theorem c5_failed_save_retains_claim :
    ∀ (m : TCPPortMapping) (svc : ServiceWithPort) (p : Int),
      m.minPort ≤ p → p ≤ m.maxPort →
      tableFind? m.table p = none →
      (∀ q : Int, m.minPort ≤ q → q < p → (tableFind? m.table q).isSome) →
      (∀ e ∈ m.table, e.2 ≠ svc) →
      TCPPortMapping.Add false m svc =
        ({ m with table := tableInsert m.table p svc }, .error .saveFailed) ∧
      TCPPortMapping.Find { m with table := tableInsert m.table p svc } svc = some p := by
  intro m svc p h1 h2 hp hbelow hfresh
  constructor
  · have hfree := TCPPortMapping.addLoop_first_free false svc (m.maxPort + 1 - m.minPort).toNat
      m.minPort m.table p h1 (by omega) hp hbelow
    simp only [TCPPortMapping.Add, hfree]
    simp
  · exact TCPPortMapping.Find_tableInsert_fresh m p svc hfresh

/-- Witness for C5: a failed save keeps the claim of port 10000 in memory,
    returns the persistence error, and `Find` still reports 10000. -/
theorem c5_witness :
    TCPPortMapping.Add false ⟨10000, 10100, []⟩ ⟨gs "default", gs "db", 5432⟩ =
      (⟨10000, 10100, [(10000, ⟨gs "default", gs "db", 5432⟩)]⟩, .error .saveFailed) ∧
    TCPPortMapping.Find ⟨10000, 10100, [(10000, ⟨gs "default", gs "db", 5432⟩)]⟩
      ⟨gs "default", gs "db", 5432⟩ = some 10000 := by
  have h := c5_failed_save_retains_claim ⟨10000, 10100, []⟩ ⟨gs "default", gs "db", 5432⟩ 10000
    (by norm_num) (by norm_num) (by decide)
    (by intro q hq1 hq2; exact absurd (hq1.trans_lt hq2) (by decide))
    (by intro e he; simp at he)
  simpa [tableInsert] using h

/-- Counterexample to C3 as stated: `loadState` performs no range validation,
    so rehydrating the document entry `"99999" ↦ "default/a:80"` into the
    range `[10000, 10100]` yields a state violating the range invariant. -/
theorem c3_counterexample :
    ¬ TCPPortMapping.InRange (NewTCPPortMapping 10000 10100 [(gs "99999", gs "default/a:80")]) := by
  decide

/-- C3 (amended): `getTCPPort` — the Find-then-Add path through which the
    controller allocates — preserves both `PortAssignment` invariants; but
    `loadState` validates nothing: rehydration satisfies the range invariant
    only when every parseable entry of the persisted document lies within
    `[minPort, maxPort]`, and injectivity only when the parsed refs of the
    document are functionally related to their ports. -/
theorem c3_invariants_amended :
    (∀ (saveOk : Bool) (m : TCPPortMapping) (name ns : GoStr) (port : Int),
      TCPPortMapping.InRange m → TCPPortMapping.InjectiveValues m →
      TCPPortMapping.InRange (getTCPPort saveOk m name ns port).1 ∧
        TCPPortMapping.InjectiveValues (getTCPPort saveOk m name ns port).1) ∧
    (∀ (minP maxP : Int) (data : List (GoStr × GoStr)),
      (∀ kv ∈ data, ∀ p : Int, parseInt32 kv.1 = some p → minP ≤ p ∧ p ≤ maxP) →
      TCPPortMapping.InRange (NewTCPPortMapping minP maxP data)) ∧
    (∀ (minP maxP : Int) (data : List (GoStr × GoStr)),
      (∀ kv ∈ data, ∀ kv' ∈ data, ∀ (p p' : Int) (s s' : ServiceWithPort),
        parseInt32 kv.1 = some p → parseServiceNamePort kv.2 = some s →
        parseInt32 kv'.1 = some p' → parseServiceNamePort kv'.2 = some s' →
        s = s' → p = p') →
      TCPPortMapping.InjectiveValues (NewTCPPortMapping minP maxP data)) := by
  refine ⟨?_, ?_, ?_⟩
  · intro saveOk m name ns port hr hinj
    exact getTCPPort_preserves saveOk m name ns port hr hinj
  · intro minP maxP data h e he
    rcases TCPPortMapping.mem_loadState data [] e he with h0 | ⟨kv, hkv, hk, _⟩
    · simp at h0
    · exact h kv hkv e.1 hk
  · intro minP maxP data h e1 he1 e2 he2 hv
    rcases TCPPortMapping.mem_loadState data [] e1 he1 with h0 | ⟨kv, hkv, hk, hs⟩
    · simp at h0
    · rcases TCPPortMapping.mem_loadState data [] e2 he2 with h0' | ⟨kv', hkv', hk', hs'⟩
      · simp at h0'
      · exact h kv hkv kv' hkv' e1.1 e2.1 e1.2 e2.2 hk hs hk' hs' hv

/-- Witness for C3 (amended): `getTCPPort` on an invariant-satisfying state
    yields an invariant-satisfying state. -/
theorem c3_witness :
    TCPPortMapping.InRange (getTCPPort true ⟨10000, 10100, []⟩ (gs "db") (gs "default") 5432).1 := by
  exact (c3_invariants_amended.1 true ⟨10000, 10100, []⟩ (gs "db") (gs "default") 5432
    (by decide) (by decide)).1

/-- C8: for all valid inputs — names and namespaces free of the separator
    characters `':'` and `'/'` (as Kubernetes object names are), and an
    `int32` port — parsing the formatted persistence entry returns the
    original triple. -/
theorem c8_parse_format_roundtrip :
    ∀ (ns name : GoStr) (port : Int),
      (∀ c ∈ ns, c ≠ ':' ∧ c ≠ '/') →
      (∀ c ∈ name, c ≠ ':' ∧ c ≠ '/') →
      -(2 ^ 31) ≤ port → port < 2 ^ 31 →
      parseServiceNamePort (formatServiceNamePort name ns port) = some ⟨ns, name, port⟩ := by
  intro ns name port hns hname hlo hhi
  have hport_chars : ∀ c ∈ intToGoStr port, c ≠ ':' := by
    intro c hc
    rw [intToGoStr] at hc
    by_cases hp : port < 0
    · rw [if_pos hp] at hc
      rcases List.mem_cons.1 hc with h | h
      · rw [h]; decide
      · obtain ⟨d, hd, hcd⟩ := mem_natDigits c h
        rw [hcd]
        exact (digitToChar_ne hd).1
    · rw [if_neg hp] at hc
      obtain ⟨d, hd, hcd⟩ := mem_natDigits c hc
      rw [hcd]
      exact (digitToChar_ne hd).1
  have hpre : ∀ c ∈ ns ++ '/' :: name, c ≠ ':' := by
    intro c hc
    rcases List.mem_append.1 hc with h | h
    · exact (hns c h).1
    · rcases List.mem_cons.1 h with h1 | h1
      · rw [h1]; decide
      · exact (hname c h1).1
  have hval : formatServiceNamePort name ns port = (ns ++ '/' :: name) ++ ':' :: intToGoStr port := by
    simp [formatServiceNamePort]
  have hsplit1 : splitGo ':' (formatServiceNamePort name ns port)
      = (ns ++ '/' :: name) :: splitGo ':' (intToGoStr port) := by
    rw [hval]
    exact splitGo_append ':' _ _ hpre
  have hsplit2 : splitGo ':' (intToGoStr port) = [intToGoStr port] :=
    splitGo_no_sep ':' _ hport_chars
  have hsplit3 : splitGo '/' (ns ++ '/' :: name) = ns :: splitGo '/' name :=
    splitGo_append '/' ns name (fun c hc => (hns c hc).2)
  have hsplit4 : splitGo '/' name = [name] :=
    splitGo_no_sep '/' name (fun c hc => (hname c hc).2)
  simp only [parseServiceNamePort, hsplit1, hsplit2, hsplit3, hsplit4,
    parseInt32_intToGoStr hlo hhi]

/-- Witness for C8: the triple `(default, web, 5432)` round-trips. -/
theorem c8_witness :
    parseServiceNamePort (formatServiceNamePort (gs "web") (gs "default") 5432) =
      some ⟨gs "default", gs "web", 5432⟩ :=
  c8_parse_format_roundtrip (gs "default") (gs "web") 5432 (by decide) (by decide)
    (by decide) (by decide)

/-- C9: a legacy persistence entry `"<name>:<port>"` (no slash) parses to the
    default namespace; and during rehydration an entry with an unparseable
    key or value is skipped while the remaining entries are still loaded —
    `loadState` is total on the document's entries, so rehydration never
    fails on a malformed entry. -/
theorem c9_legacy_and_skip :
    (∀ (name : GoStr) (port : Int),
      (∀ c ∈ name, c ≠ ':' ∧ c ≠ '/') → -(2 ^ 31) ≤ port → port < 2 ^ 31 →
      parseServiceNamePort (name ++ ':' :: intToGoStr port) =
        some ⟨NamespaceDefault, name, port⟩) ∧
    (∀ (t : Table) (kv : GoStr × GoStr) (rest : List (GoStr × GoStr)),
      parseInt32 kv.1 = none →
      TCPPortMapping.loadState t (kv :: rest) = TCPPortMapping.loadState t rest) ∧
    (∀ (t : Table) (kv : GoStr × GoStr) (rest : List (GoStr × GoStr)) (p : Int),
      parseInt32 kv.1 = some p → parseServiceNamePort kv.2 = none →
      TCPPortMapping.loadState t (kv :: rest) = TCPPortMapping.loadState t rest) := by
  refine ⟨?_, ?_, ?_⟩
  · intro name port hname hlo hhi
    have hport_chars : ∀ c ∈ intToGoStr port, c ≠ ':' := by
      intro c hc
      rw [intToGoStr] at hc
      by_cases hp : port < 0
      · rw [if_pos hp] at hc
        rcases List.mem_cons.1 hc with h | h
        · rw [h]; decide
        · obtain ⟨d, hd, hcd⟩ := mem_natDigits c h
          rw [hcd]
          exact (digitToChar_ne hd).1
      · rw [if_neg hp] at hc
        obtain ⟨d, hd, hcd⟩ := mem_natDigits c hc
        rw [hcd]
        exact (digitToChar_ne hd).1
    have hsplit1 : splitGo ':' (name ++ ':' :: intToGoStr port)
        = name :: splitGo ':' (intToGoStr port) :=
      splitGo_append ':' name _ (fun c hc => (hname c hc).1)
    have hsplit2 : splitGo ':' (intToGoStr port) = [intToGoStr port] :=
      splitGo_no_sep ':' _ hport_chars
    have hsplit3 : splitGo '/' name = [name] :=
      splitGo_no_sep '/' name (fun c hc => (hname c hc).2)
    simp only [parseServiceNamePort, hsplit1, hsplit2, hsplit3,
      parseInt32_intToGoStr hlo hhi]
  · intro t kv rest hk
    exact TCPPortMapping.loadState_skip_key t kv rest hk
  · intro t kv rest p hk hv
    exact TCPPortMapping.loadState_skip_value t kv rest p hk hv

/-- Witness for C9: the legacy entry `"db:5432"` parses into the default
    namespace. -/
theorem c9_witness :
    parseServiceNamePort (gs "db" ++ ':' :: intToGoStr 5432) =
      some ⟨NamespaceDefault, gs "db", 5432⟩ :=
  c9_legacy_and_skip.1 (gs "db") 5432 (by decide) (by decide) (by decide)

/-- C2: on a refresh signal whose built configuration deep-equals the stored
    last configuration and whose tag is normal, nothing happens — the state
    (including the stored configuration) is unchanged and no push is made;
    if the tag is force or the configuration differs, the new configuration
    is stored and, when data-plane pods exist, one push is made to every one
    of them. -/
theorem c2_refresh_reconcile {Config : Type} [DecidableEq Config] :
    ∀ (s : ControllerState Config) (msg : ConfigMessage) (conf : Config) (pods : List MeshPod),
      (msg = ConfigMessage.normal ∧ s.lastConfiguration = some conf →
        runStep s (ControllerEvent.refresh msg (some conf) pods) = (StepResult.next s, [])) ∧
      ((msg = ConfigMessage.force ∨ s.lastConfiguration ≠ some conf) →
        ∃ s', (runStep s (ControllerEvent.refresh msg (some conf) pods)).1 = StepResult.next s' ∧
          s'.lastConfiguration = some conf ∧
          (runStep s (ControllerEvent.refresh msg (some conf) pods)).2 =
            if pods.isEmpty then [] else pods.map (fun p => p.pushOk)) := by
  intro s msg conf pods
  constructor
  · rintro ⟨hmsg, hlast⟩
    subst hmsg
    have hcond : ¬(ConfigMessage.normal = ConfigMessage.force ∨
        s.lastConfiguration ≠ some conf) := by
      simp [hlast]
    simp only [runStep, if_neg hcond]
  · intro hcond
    simp only [runStep, if_pos hcond]
    by_cases hpods : pods.isEmpty
    · exact ⟨{ s with lastConfiguration := some conf }, by simp [hpods], rfl, by simp [hpods]⟩
    · by_cases hdep : deployToPods pods
      · exact ⟨{ s with lastConfiguration := some conf, readiness := true },
          by simp [hpods, hdep], rfl, by simp [hpods, hdep]⟩
      · exact ⟨{ s with lastConfiguration := some conf },
          by simp [hpods, hdep], rfl, by simp [hpods, hdep]⟩

/-- Witness for C2: a normal refresh with an unchanged configuration leaves
    the state untouched and performs no push. -/
theorem c2_witness :
    runStep (⟨some 7, true⟩ : ControllerState Nat)
      (ControllerEvent.refresh ConfigMessage.normal (some 7) []) =
      (StepResult.next ⟨some 7, true⟩, []) :=
  (c2_refresh_reconcile ⟨some 7, true⟩ ConfigMessage.normal 7 []).1 ⟨rfl, rfl⟩

/-- Counterexample to C6 as stated: a failed configuration build does not
    log-and-continue — `Controller.Run` returns the error, terminating the
    reconciler loop. -/
theorem c6_counterexample :
    runStep (⟨none, false⟩ : ControllerState Nat)
      (ControllerEvent.refresh ConfigMessage.normal none []) =
      (StepResult.exitedWithError, []) := rfl

/-- C6 (amended): a failed fan-out (deploy error) is swallowed and the loop
    continues to the next signal, and a tick whose stored configuration is
    set likewise always continues; but a failed configuration build makes
    `Run` return the error, terminating the reconciler like a bootstrap
    failure would. -/
theorem c6_cycle_failures_amended {Config : Type} [DecidableEq Config] :
    (∀ (s : ControllerState Config) (msg : ConfigMessage) (conf : Config) (pods : List MeshPod),
      ∃ s', (runStep s (ControllerEvent.refresh msg (some conf) pods)).1 = StepResult.next s') ∧
    (∀ (s : ControllerState Config) (c : Config) (pods : List MeshPod),
      s.lastConfiguration = some c →
      ∃ s', (runStep s (ControllerEvent.tick pods)).1 = StepResult.next s') ∧
    (∀ (s : ControllerState Config) (msg : ConfigMessage) (pods : List MeshPod),
      runStep s (ControllerEvent.refresh msg none pods) = (StepResult.exitedWithError, [])) := by
  refine ⟨?_, ?_, ?_⟩
  · intro s msg conf pods
    simp only [runStep]
    split_ifs <;> exact ⟨_, rfl⟩
  · intro s c pods hlast
    simp only [runStep, hlast]
    split_ifs <;> exact ⟨_, rfl⟩
  · intro s msg pods
    rfl

/-- Witness for C6 (amended): a tick with a stored configuration and no pods
    fails its cycle yet the loop continues. -/
theorem c6_witness :
    ∃ s', (runStep (⟨some 0, false⟩ : ControllerState Nat) (ControllerEvent.tick [])).1 =
      StepResult.next s' :=
  c6_cycle_failures_amended.2.1 ⟨some 0, false⟩ 0 [] rfl

/-- Counterexample to C7 as stated: in the trace where a normal refresh finds
    no pods (its deploy fails, readiness stays off) and a tick then finds one
    pod whose only container is ready, the vacuous unready fan-out succeeds
    and readiness is enabled — while the total number of successful pushes
    along the trace is zero, i.e. no deploy to any data-plane instance ever
    completed. -/
theorem c7_counterexample :
    runTrace (⟨none, false⟩ : ControllerState Nat)
      [ControllerEvent.refresh ConfigMessage.normal (some 0) [],
       ControllerEvent.tick [⟨[true], true⟩]] = (⟨some 0, true⟩, 0) := rfl

/-- C7 (amended): readiness is never flipped by a cycle that fails — a
    refresh whose `deployConfiguration` fails (including the empty-pod-list
    case) and a tick whose `deployConfigurationToUnreadyNodes` fails leave
    readiness unchanged; but a tick that finds pods none of which are unready
    succeeds vacuously, pushing to no instance, and enables readiness. -/
theorem c7_readiness_amended {Config : Type} [DecidableEq Config] :
    (∀ (s : ControllerState Config) (msg : ConfigMessage) (build : Option Config)
        (pods : List MeshPod) (s' : ControllerState Config) (pr : List Bool),
      runStep s (ControllerEvent.refresh msg build pods) = (StepResult.next s', pr) →
      deployConfiguration pods = false → s'.readiness = s.readiness) ∧
    (∀ (s : ControllerState Config) (pods : List MeshPod)
        (s' : ControllerState Config) (pr : List Bool),
      runStep s (ControllerEvent.tick pods) = (StepResult.next s', pr) →
      deployConfigurationToUnreadyNodes pods = false → s'.readiness = s.readiness) ∧
    (∀ (s : ControllerState Config) (c : Config) (pods : List MeshPod),
      s.lastConfiguration = some c → pods ≠ [] → (∀ p ∈ pods, isUnready p = false) →
      runStep s (ControllerEvent.tick pods) =
        (StepResult.next { s with readiness := true }, [])) := by
  refine ⟨?_, ?_, ?_⟩
  · intro s msg build pods s' pr hstep hdep
    cases build with
    | none => simp [runStep] at hstep
    | some conf =>
      rw [deployConfiguration] at hdep
      simp only [runStep] at hstep
      split_ifs at hstep with h1 h2 h3
      · simp only [Prod.mk.injEq, StepResult.next.injEq] at hstep
        rw [← hstep.1]
      · rw [if_neg h2] at hdep
        rw [h3] at hdep
        exact absurd hdep (by simp)
      · simp only [Prod.mk.injEq, StepResult.next.injEq] at hstep
        rw [← hstep.1]
      · simp only [Prod.mk.injEq, StepResult.next.injEq] at hstep
        rw [← hstep.1]
  · intro s pods s' pr hstep hdep
    cases hl : s.lastConfiguration with
    | none => simp [runStep, hl] at hstep
    | some c =>
      rw [deployConfigurationToUnreadyNodes] at hdep
      simp only [runStep, hl] at hstep
      split_ifs at hstep with h1 h2
      · simp only [Prod.mk.injEq, StepResult.next.injEq] at hstep
        rw [← hstep.1]
      · rw [if_neg h1] at hdep
        rw [h2] at hdep
        exact absurd hdep (by simp)
      · simp only [Prod.mk.injEq, StepResult.next.injEq] at hstep
        rw [← hstep.1]
  · intro s c pods hl hpods hready
    have hfilter : pods.filter isUnready = [] :=
      List.filter_eq_nil_iff.2 (fun p hp => by simp [hready p hp])
    have hempty : pods.isEmpty = false := by
      cases pods with
      | nil => exact absurd rfl hpods
      | cons a rest => rfl
    simp only [runStep, hl, hempty, hfilter]
    simp [deployToPods]

/-- Witness for C7 (amended): a tick finding one fully-ready pod enables
    readiness while pushing to no instance. -/
theorem c7_witness :
    runStep (⟨some 0, false⟩ : ControllerState Nat) (ControllerEvent.tick [⟨[true], true⟩]) =
      (StepResult.next ⟨some 0, true⟩, []) :=
  c7_readiness_amended.2.2 ⟨some 0, false⟩ 0 [⟨[true], true⟩] rfl (by decide) (by decide)

/-- C10: the claim requires the stored last configuration to be non-nil
    whenever the periodic tick fires, but in the initial state — a tick
    firing before any refresh signal has been processed — the slot is still
    nil and the tick branch's type assertion panics. -/
theorem c10_tick_nil_panics :
    runStep (⟨none, false⟩ : ControllerState Nat) (ControllerEvent.tick [⟨[true], true⟩]) =
      (StepResult.panicked, []) := rfl

/-- C4: the shadow-service ports array iterates the user service's ports in
    declared order with the positional index `id` starting at 0. In `http`
    mode the result is exactly the TCP-protocol ports with
    `targetPort = 5000 + id` — non-TCP ports are omitted but their index is
    still consumed — and the allocator is untouched. A non-TCP port is
    skipped with the index advancing in any mode. In `tcp` mode an emitted
    entry carries the `getTCPPort` result — the existing assignment when
    `Find` hits, the state there being untouched — and a `getTCPPort`
    failure (e.g. port exhaustion) skips that port while the remaining ports
    are still processed. -/
theorem c4_shadow_ports :
    (∀ (saveOk : Bool) (svcName svcNamespace : GoStr) (m : TCPPortMapping)
        (ports : List UserServicePort),
      buildMeshPorts saveOk ServiceTypeHTTP svcName svcNamespace m ports =
        (ports.enum.filterMap (fun q =>
          if q.2.protocol = PortProtocol.TCP then
            some ⟨q.2.name, q.2.port, 5000 + (q.1 : Int)⟩ else none), m)) ∧
    (∀ (saveOk : Bool) (serviceMode svcName svcNamespace : GoStr) (id : Nat)
        (m : TCPPortMapping) (sp : UserServicePort) (rest : List UserServicePort),
      sp.protocol ≠ PortProtocol.TCP →
      buildMeshPortsAux saveOk serviceMode svcName svcNamespace id m (sp :: rest) =
        buildMeshPortsAux saveOk serviceMode svcName svcNamespace (id + 1) m rest) ∧
    (∀ (saveOk : Bool) (svcName svcNamespace : GoStr) (id : Nat) (m m' : TCPPortMapping)
        (sp : UserServicePort) (rest : List UserServicePort) (p : Int),
      sp.protocol = PortProtocol.TCP →
      getTCPPort saveOk m svcName svcNamespace sp.port = (m', Except.ok p) →
      buildMeshPortsAux saveOk ServiceTypeTCP svcName svcNamespace id m (sp :: rest) =
        (⟨sp.name, sp.port, p⟩ ::
            (buildMeshPortsAux saveOk ServiceTypeTCP svcName svcNamespace (id + 1) m' rest).1,
          (buildMeshPortsAux saveOk ServiceTypeTCP svcName svcNamespace (id + 1) m' rest).2)) ∧
    (∀ (saveOk : Bool) (svcName svcNamespace : GoStr) (id : Nat) (m m' : TCPPortMapping)
        (sp : UserServicePort) (rest : List UserServicePort) (e : AddError),
      sp.protocol = PortProtocol.TCP →
      getTCPPort saveOk m svcName svcNamespace sp.port = (m', Except.error e) →
      buildMeshPortsAux saveOk ServiceTypeTCP svcName svcNamespace id m (sp :: rest) =
        buildMeshPortsAux saveOk ServiceTypeTCP svcName svcNamespace (id + 1) m' rest) ∧
    (∀ (saveOk : Bool) (svcName svcNamespace : GoStr) (id : Nat) (m : TCPPortMapping)
        (sp : UserServicePort) (rest : List UserServicePort) (p : Int),
      sp.protocol = PortProtocol.TCP →
      TCPPortMapping.Find m ⟨svcNamespace, svcName, sp.port⟩ = some p →
      buildMeshPortsAux saveOk ServiceTypeTCP svcName svcNamespace id m (sp :: rest) =
        (⟨sp.name, sp.port, p⟩ ::
            (buildMeshPortsAux saveOk ServiceTypeTCP svcName svcNamespace (id + 1) m rest).1,
          (buildMeshPortsAux saveOk ServiceTypeTCP svcName svcNamespace (id + 1) m rest).2)) := by
  refine ⟨?_, ?_, ?_, ?_, ?_⟩
  · intro saveOk svcName svcNamespace m ports
    exact buildMeshPortsAux_http saveOk ServiceTypeHTTP svcName svcNamespace (by decide)
      ports 0 m
  · intro saveOk serviceMode svcName svcNamespace id m sp rest hsp
    simp only [buildMeshPortsAux, if_pos hsp]
  · intro saveOk svcName svcNamespace id m m' sp rest p hsp hget
    have hnn : ¬(sp.protocol ≠ PortProtocol.TCP) := by simp [hsp]
    simp only [buildMeshPortsAux, if_neg hnn, if_pos rfl, hget]
    rw [if_pos trivial]
  · intro saveOk svcName svcNamespace id m m' sp rest e hsp hget
    have hnn : ¬(sp.protocol ≠ PortProtocol.TCP) := by simp [hsp]
    simp only [buildMeshPortsAux, if_neg hnn, if_pos rfl, hget]
    rw [if_pos trivial]
  · intro saveOk svcName svcNamespace id m sp rest p hsp hfind
    have hget := getTCPPort_find_hit saveOk m svcName svcNamespace sp.port p hfind
    have hnn : ¬(sp.protocol ≠ PortProtocol.TCP) := by simp [hsp]
    simp only [buildMeshPortsAux, if_neg hnn, if_pos rfl, hget]
    rw [if_pos trivial]

/-- Witness for C4: with the two-port range `[10000, 10001]` fully assigned,
    a `tcp`-mode service's port allocation fails and the port is skipped,
    leaving the ports array empty (spec scenario 6's exhaustion behaviour). -/
theorem c4_witness :
    buildMeshPorts true ServiceTypeTCP (gs "web") (gs "default")
      ⟨10000, 10001, [(10000, ⟨gs "default", gs "a", 80⟩), (10001, ⟨gs "default", gs "b", 81⟩)]⟩
      [⟨gs "pg", PortProtocol.TCP, 5432⟩] =
      ([], ⟨10000, 10001,
        [(10000, ⟨gs "default", gs "a", 80⟩), (10001, ⟨gs "default", gs "b", 81⟩)]⟩) := by
  have hget : getTCPPort true
      ⟨10000, 10001, [(10000, ⟨gs "default", gs "a", 80⟩), (10001, ⟨gs "default", gs "b", 81⟩)]⟩
      (gs "web") (gs "default") 5432 =
      (⟨10000, 10001, [(10000, ⟨gs "default", gs "a", 80⟩), (10001, ⟨gs "default", gs "b", 81⟩)]⟩,
        Except.error AddError.exhausted) := rfl
  exact c4_shadow_ports.2.2.2.1 true (gs "web") (gs "default") 0 _ _
    ⟨gs "pg", PortProtocol.TCP, 5432⟩ [] AddError.exhausted rfl hget
